import Mathlib

/-!
Verification development for the labodega POS hardware-bridge repository.

The repository has two sides:
* the Raspberry-Pi bridge process (`scale_bridge.py`, documented in
  `raspberry_pi/README.md` and `raspberry_pi/pi_setup.md`), which owns the
  serial scanner/scale and the receipt printer and exposes the HTTP API
  `/barcode`, `/weight`, `/print_raw`, `/open_drawer`, `/printer_status`;
* the browser POS client (`magellan_scale_service.js`,
  `magellan_print_service.js`, `magellan_config.js`,
  `compact_receipt_patch.js`), which polls the bridge and renders receipts
  into ESC/POS byte streams.

The bridge's Python source is not part of the available sources, so the
bridge-side state store and printer dispatcher are modelled from the spec;
the browser client code is embedded directly from the JavaScript sources.
-/

namespace Bridge

/-- Modelled from the spec: the bridge's Shared State Store
(`scale_bridge.py` is not among the available sources; only its README,
setup guide and HTTP callers are).  It holds the pending-barcode FIFO
(oldest first) and the latest weight reading, a value together with the
timestamp of the frame it came from. -/
structure BridgeState where
  queue : List String
  lastWeight : Option (Rat × Nat)
  deriving Repr, DecidableEq

/-- Modelled from the spec: the state at process start — no pending
barcodes, no weight reading has ever arrived. -/
def initState : BridgeState := { queue := [], lastWeight := none }

/-- Modelled from the spec: `pushBarcode(code)` — append-only push of a
decoded scan code onto the FIFO queue. -/
def pushBarcode (s : BridgeState) (code : String) : BridgeState :=
  { s with queue := s.queue ++ [code] }

/-- Modelled from the spec: `popBarcode() -> Option<code>` — removes and
returns the oldest pending code, or empty if none; this is the exact
contract `/barcode` exposes. -/
def popBarcode (s : BridgeState) : Option String × BridgeState :=
  match s.queue with
  | [] => (none, s)
  | c :: rest => (some c, { s with queue := rest })

/-- Modelled from the spec: `setWeight(value, timestamp)` — overwrites the
latest weight reading; readings are never queued. -/
def setWeight (s : BridgeState) (value : Rat) (timestamp : Nat) : BridgeState :=
  { s with lastWeight := some (value, timestamp) }

/-- Modelled from the spec: `getWeight() -> Option<value>` — returns empty
if no reading has ever arrived, or if the most recent reading's timestamp
is older than the staleness threshold; otherwise the latest value. -/
def getWeight (s : BridgeState) (now staleness : Nat) : Option Rat :=
  match s.lastWeight with
  | none => none
  | some (v, t) => if staleness < now - t then none else some v

/-- Modelled from the spec: the Serial Ingest Loop's handling of a weight
frame — parse the raw integer, divide by the configured divisor
(`WEIGHT_DIVISOR`), and overwrite the latest reading with the result and
the frame's timestamp. -/
def ingestWeightFrame (s : BridgeState) (raw : Int) (divisor : Nat) (t : Nat) : BridgeState :=
  setWeight s ((raw : Rat) / (divisor : Rat)) t

/-- Pushing a whole sequence of barcode events, in arrival order. -/
def pushAll (s : BridgeState) (codes : List String) : BridgeState :=
  codes.foldl pushBarcode s

/-- The results of `n` successive `popBarcode` calls, with the state
threaded through. -/
def popSeq : Nat → BridgeState → List (Option String) × BridgeState
  | 0, s => ([], s)
  | n + 1, s =>
    let (r, s') := popBarcode s
    let (rs, s'') := popSeq n s'
    (r :: rs, s'')

theorem pushAll_queue (s : BridgeState) (codes : List String) :
    (pushAll s codes).queue = s.queue ++ codes := by
  induction codes generalizing s with
  | nil => simp [pushAll]
  | cons c cs ih =>
    simp [pushAll, List.foldl_cons, pushBarcode] at *
    simpa using ih { s with queue := s.queue ++ [c] }

theorem popSeq_empty (n : Nat) (w : Option (Rat × Nat)) :
    popSeq n { queue := [], lastWeight := w } =
      (List.replicate n none, { queue := [], lastWeight := w }) := by
  induction n with
  | zero => simp [popSeq]
  | succ k ih => simp [popSeq, popBarcode, ih, List.replicate]

theorem popSeq_drains (q : List String) (n : Nat) (w : Option (Rat × Nat)) :
    popSeq (q.length + n) { queue := q, lastWeight := w } =
      (q.map some ++ List.replicate n none, { queue := [], lastWeight := w }) := by
  induction q with
  | nil => simpa using popSeq_empty n w
  | cons c cs ih =>
    simp only [List.length_cons]
    have hstep : popSeq (cs.length + n + 1) { queue := c :: cs, lastWeight := w } =
        (some c :: (popSeq (cs.length + n) { queue := cs, lastWeight := w }).1,
         (popSeq (cs.length + n) { queue := cs, lastWeight := w }).2) := by
      simp [popSeq, popBarcode]
    rw [show cs.length + 1 + n = cs.length + n + 1 by omega, hstep, ih]
    simp

theorem pushAll_lastWeight (s : BridgeState) (codes : List String) :
    (pushAll s codes).lastWeight = s.lastWeight := by
  induction codes generalizing s with
  | nil => rfl
  | cons c cs ih =>
    simpa [pushAll, List.foldl_cons, pushBarcode] using
      ih { s with queue := s.queue ++ [c] }

/-- C1: for every sequence of barcode events appended to the bridge's FIFO
queue, successive `popBarcode` calls (the contract of GET `/barcode`) return
exactly those codes, in arrival order, each delivered exactly once, and every
call with the queue drained returns none rather than replaying the last
code. -/
theorem barcode_fifo_exactly_once (codes : List String) (extra : Nat) :
    (popSeq (codes.length + extra) (pushAll initState codes)).1 =
      codes.map some ++ List.replicate extra none := by
  have hq : pushAll initState codes = { queue := codes, lastWeight := none } := by
    have h1 := pushAll_queue initState codes
    have h2 := pushAll_lastWeight initState codes
    cases hs : pushAll initState codes
    simp_all [initState]
  rw [hq, popSeq_drains]

/-- C2: `getWeight` (the contract of GET `/weight`) returns none exactly when
either no weight reading has ever arrived or the most recent reading's
timestamp is older than the staleness threshold; otherwise it returns the
latest reading's value.  Staleness is not an error: the codomain is
`Option Rat`, so a stale reading is reported as the same absence as
no-reading. -/
theorem getWeight_none_iff_absent_or_stale (s : BridgeState) (now staleness : Nat) :
    (getWeight s now staleness = none ↔
      s.lastWeight = none ∨
        ∃ v t, s.lastWeight = some (v, t) ∧ staleness < now - t) ∧
    (∀ v t, s.lastWeight = some (v, t) → now - t ≤ staleness →
      getWeight s now staleness = some v) := by
  constructor
  · cases h : s.lastWeight with
    | none => simp [getWeight, h]
    | some p =>
      obtain ⟨v, t⟩ := p
      constructor
      · intro hnone
        right
        refine ⟨v, t, rfl, ?_⟩
        by_contra hfresh
        simp [getWeight, h, hfresh] at hnone
      · rintro (hcontra | ⟨v', t', hvt, hstale⟩)
        · simp [h] at hcontra
        · simp [h] at hvt
          obtain ⟨hv, ht⟩ := hvt
          subst hv ht
          simp [getWeight, h, hstale]
  · intro v t hvt hfresh
    simp [getWeight, hvt, Nat.not_lt_of_le hfresh]

/-- Witness for C2 at a concrete state: a reading of value 1/2 taken at
time 5, read at time 6 with staleness threshold 3, is fresh and returned. -/
theorem getWeight_none_iff_absent_or_stale_witness :
    getWeight { queue := [], lastWeight := some (1/2, 5) } 6 3 = some (1/2) :=
  (getWeight_none_iff_absent_or_stale
    { queue := [], lastWeight := some (1/2, 5) } 6 3).2 (1/2) 5 rfl (by decide)

/-- C3: the weight value exposed by `/weight` equals the raw integer parsed
from a weight frame divided by the configured divisor; in particular a raw
frame encoding 45 with divisor 100 yields 0.45. -/
theorem weight_is_raw_div_divisor (s : BridgeState) (raw : Int)
    (divisor t now staleness : Nat) (hfresh : now - t ≤ staleness) :
    getWeight (ingestWeightFrame s raw divisor t) now staleness =
      some ((raw : Rat) / (divisor : Rat)) ∧
    getWeight (ingestWeightFrame s 45 100 t) now staleness = some 0.45 := by
  constructor
  · simp [ingestWeightFrame, setWeight, getWeight, Nat.not_lt_of_le hfresh]
  · simp only [ingestWeightFrame, setWeight, getWeight, Nat.not_lt_of_le hfresh,
      if_neg (Nat.not_lt_of_le hfresh)]
    norm_num

/-- Witness for C3: ingesting raw 45 with divisor 100 at time 0 and reading
immediately yields 0.45. -/
theorem weight_is_raw_div_divisor_witness :
    getWeight (ingestWeightFrame initState 45 100 0) 0 0 = some 0.45 :=
  (weight_is_raw_div_divisor initState 45 100 0 0 0 (by decide)).2

/-- The transport a print job was delivered through: the raw USB device
file (`PRINTER_DEVICE = /dev/usb/lp0`, preferred) or the CUPS spooler queue
(`PRINTER_NAME = epson_pos`, fallback). -/
inductive PrintMethod where
  | direct
  | spooler
  deriving Repr, DecidableEq

/-- Outcome of a print dispatch: `ready method` is the
`{status: ready, method}` success result, `error message` the
`{status: "error", message}` result. -/
inductive PrintOutcome where
  | ready (method : PrintMethod)
  | error (message : String)
  deriving Repr, DecidableEq

/-- Modelled from the spec: the Printer Dispatcher's `print(payload)`
(`scale_bridge.py` is not among the available sources).  The per-call
transport outcomes are injected as `directOk` (the direct-USB write
succeeds) and `spoolerOk` (the spooler submission succeeds): try the direct
write first; on failure fall back to submitting the same payload to the
spooler; only if both fail return an error result. -/
def printDispatch (directOk spoolerOk : Bool) : PrintOutcome :=
  if directOk then .ready .direct
  else if spoolerOk then .ready .spooler
  else .error "both printer transports failed"

/-- C4: if the direct-USB write succeeds the result is
`{status: ready, method: direct}`; if the direct write fails the payload is
submitted to the spooler and success there reports the spooler method; only
when both transports fail is `{status: "error", message}` returned — an
accepted job is never silently dropped. -/
theorem print_fallback_never_drops (directOk spoolerOk : Bool) :
    (directOk = true → printDispatch directOk spoolerOk = .ready .direct) ∧
    (directOk = false → spoolerOk = true →
      printDispatch directOk spoolerOk = .ready .spooler) ∧
    ((∃ m : PrintMethod, printDispatch directOk spoolerOk = .ready m) ∨
      printDispatch directOk spoolerOk = .error "both printer transports failed") ∧
    (printDispatch directOk spoolerOk = .error "both printer transports failed" ↔
      directOk = false ∧ spoolerOk = false) := by
  cases directOk <;> cases spoolerOk <;> simp [printDispatch]

/-- Witness for C4 at a concrete input: with the direct write failing and
the spooler succeeding, the job is delivered via the spooler. -/
theorem print_fallback_never_drops_witness :
    printDispatch false true = .ready .spooler :=
  (print_fallback_never_drops false true).2.1 rfl rfl

/-- Result of submitting a print/drawer job to the dispatcher. -/
inductive SubmitOutcome where
  | accepted
  | busy
  deriving Repr, DecidableEq

/-- Events the printer dispatcher's serialization state reacts to:
a new `/print_raw` or `/open_drawer` submission, or completion of the
active job. -/
inductive PrinterEv where
  | submit
  | finish
  deriving Repr, DecidableEq

/-- Modelled from the spec: the dispatcher's serialization state is the
number of in-flight PrinterJobs.  A submission while one is active is
rejected — the count is left unchanged, nothing is queued; a submission
when idle starts the single job; `finish` completes it. -/
def dispatchStep (inFlight : Nat) : PrinterEv → Nat
  | .submit => if inFlight = 0 then 1 else inFlight
  | .finish => inFlight - 1

/-- Modelled from the spec: the result a submission gets — `busy` is
returned immediately whenever a job is already in flight. -/
def submitResult (inFlight : Nat) : SubmitOutcome :=
  if inFlight = 0 then .accepted else .busy

/-- The dispatcher's in-flight count after a sequence of events, starting
idle. -/
def runDispatcher (evs : List PrinterEv) : Nat :=
  evs.foldl dispatchStep 0

theorem runDispatcher_le_one_aux (evs : List PrinterEv) (n : Nat) (h : n ≤ 1) :
    evs.foldl dispatchStep n ≤ 1 := by
  induction evs generalizing n with
  | nil => simpa using h
  | cons e es ih =>
    refine ih (dispatchStep n e) ?_
    cases e with
    | submit =>
      by_cases h0 : n = 0 <;> simp [dispatchStep, h0, h]
    | finish => exact le_trans (Nat.sub_le n 1) h

/-- C5: at most one PrinterJob is in flight at any time, over every event
sequence; while one is active a second submission is answered `busy`
immediately and leaves the dispatcher state unchanged — it is neither
queued nor interleaved with the active job. -/
theorem single_job_in_flight (evs : List PrinterEv) :
    runDispatcher evs ≤ 1 ∧
    (1 ≤ runDispatcher evs →
      submitResult (runDispatcher evs) = .busy ∧
      dispatchStep (runDispatcher evs) .submit = runDispatcher evs) := by
  refine ⟨runDispatcher_le_one_aux evs 0 (by omega), ?_⟩
  intro hactive
  have hne : runDispatcher evs ≠ 0 := by omega
  exact ⟨by simp [submitResult, hne], by simp [dispatchStep, hne]⟩

/-- Witness for C5: after one accepted submission, the job is in flight and
a second submission is rejected as busy without changing the state. -/
theorem single_job_in_flight_witness :
    submitResult (runDispatcher [PrinterEv.submit]) = .busy ∧
    dispatchStep (runDispatcher [PrinterEv.submit]) .submit =
      runDispatcher [PrinterEv.submit] :=
  (single_job_in_flight [PrinterEv.submit]).2 (by decide)

end Bridge

namespace Client

/-- One HTTP request the browser POS client issues to the bridge: the
bridge endpoint it targets, and the `AbortSignal.timeout` milliseconds
attached to the `fetch` call, if any. -/
structure BridgeRequest where
  source : String
  endpoint : String
  timeoutMs : Option Nat
  deriving Repr, DecidableEq

/-- Every `fetch` of a bridge endpoint in the POS client sources, with its
timeout configuration, transcribed from the JavaScript:
`magellan_scale_service.js` (the `/barcode` polling loop and the on-demand
`/weight` fetch — neither passes a `signal`), `magellan_print_service.js`
(`sendToPrinter`, `openCashDrawer`, the base64 image path, and the startup
status probe), and `compact_receipt_patch.js`. -/
def clientBridgeRequests : List BridgeRequest :=
  [ ⟨"magellan_scale_service.js", "/barcode", none⟩,
    ⟨"magellan_scale_service.js", "/weight", none⟩,
    ⟨"magellan_print_service.js", "/print_raw", some 15000⟩,
    ⟨"magellan_print_service.js", "/open_drawer", some 5000⟩,
    ⟨"magellan_print_service.js", "/print_image", some 15000⟩,
    ⟨"magellan_print_service.js", "/printer_status", some 3000⟩,
    ⟨"compact_receipt_patch.js", "/print_raw", some 15000⟩,
    ⟨"compact_receipt_patch.js", "/open_drawer", some 5000⟩,
    ⟨"compact_receipt_patch.js", "/print_image", some 15000⟩ ]

/-- C6 counterexample: not every HTTP request the POS client issues to the
bridge carries a timeout — the `/barcode` polling fetch and the `/weight`
fetch in `magellan_scale_service.js` pass no `AbortSignal.timeout` at
all. -/
theorem not_every_request_has_timeout :
    ¬ ∀ r ∈ clientBridgeRequests, r.timeoutMs.isSome = true := by
  intro h
  have hb := h ⟨"magellan_scale_service.js", "/barcode", none⟩ (by decide)
  simp at hb

/-- C6 amended: the print-path requests carry timeouts — 15 s for
`/print_raw` and `/print_image`, 5 s for `/open_drawer`, 3 s for
`/printer_status` — while the `/barcode` and `/weight` fetches in the scale
service carry no timeout. -/
theorem request_timeout_configuration (r : BridgeRequest)
    (hr : r ∈ clientBridgeRequests) :
    (r.endpoint = "/barcode" ∨ r.endpoint = "/weight" → r.timeoutMs = none) ∧
    (r.endpoint = "/print_raw" ∨ r.endpoint = "/print_image" →
      r.timeoutMs = some 15000) ∧
    (r.endpoint = "/open_drawer" → r.timeoutMs = some 5000) ∧
    (r.endpoint = "/printer_status" → r.timeoutMs = some 3000) := by
  fin_cases hr <;> simp

/-- Witness for the amended C6 at a concrete request: the print service's
`/print_raw` call carries the 15 s timeout. -/
theorem request_timeout_configuration_witness :
    (⟨"magellan_print_service.js", "/print_raw", some 15000⟩ :
      BridgeRequest).timeoutMs = some 15000 :=
  (request_timeout_configuration
    ⟨"magellan_print_service.js", "/print_raw", some 15000⟩
    (by decide)).2.1 (Or.inl rfl)

end Client

namespace ScaleService

/-- `BRIDGE_CONFIG.BARCODE_POLL_INTERVAL` from `magellan_config.js`. -/
def BARCODE_POLL_INTERVAL : Nat := 200

/-- `BRIDGE_CONFIG.ERROR_RETRY_DELAY` from `magellan_config.js`. -/
def ERROR_RETRY_DELAY : Nat := 2000

/-- What one iteration of `startBarcodePolling` received: a thrown
error (network failure, non-ok HTTP status, or JSON parse failure — all
reach the `catch`), or a parsed body.  The body is `none` when `data`
itself is falsy (a null JSON body); otherwise it carries the `barcode`
field, where `none` stands for a missing or null field and `some s` for a
string (falsy exactly when empty). -/
inductive PollResponse where
  | fetchError
  | body (data : Option (Option String))
  deriving Repr, DecidableEq

/-- The body of the `while (true)` loop in `startBarcodePolling`
(`magellan_scale_service.js`): on `data && data.barcode` truthy it calls
`window.magellanBarcodeReader.scan(data.barcode)` (guarded by the reader
existing and `scan` being a function, `readerOk`) and loops again with no
delay; otherwise it sleeps 200 ms; on a caught error it sleeps 2000 ms.
Returns the code forwarded to the reader (if any) and the sleep in
milliseconds before the next poll. -/
def pollStep (resp : PollResponse) (readerOk : Bool) : Option String × Nat :=
  match resp with
  | .fetchError => (none, ERROR_RETRY_DELAY)
  | .body data =>
    match data with
    | some (some s) =>
      if s = "" then (none, BARCODE_POLL_INTERVAL)
      else if readerOk then (some s, 0) else (none, 0)
    | _ => (none, BARCODE_POLL_INTERVAL)

/-- The bridge endpoints the polling loop itself requests each iteration
(`startBarcodePolling` fetches only the barcode endpoint; `/weight` is
fetched on demand inside the wrapped product callback, not polled). -/
def pollLoopEndpoints : List String := ["/barcode"]

/-- C7 counterexample: the client does not poll both `/barcode` and
`/weight` every 200 ms — the polling loop requests only `/barcode`, and
after a response that carried a barcode the next request is issued with no
delay at all, not after `BARCODE_POLL_INTERVAL`. -/
theorem poll_interval_claim_false :
    ¬ ("/weight" ∈ pollLoopEndpoints) ∧
    (pollStep (.body (some (some "123"))) true).2 ≠ BARCODE_POLL_INTERVAL := by
  constructor
  · decide
  · decide

/-- C7 amended: the polling loop requests only `/barcode`; it waits
`BARCODE_POLL_INTERVAL` = 200 ms after an empty response and 2000 ms after
an error, and polls again immediately after a successful scan; `/weight` is
fetched once per weighted-product scan rather than polled. -/
theorem poll_interval_configuration :
    pollLoopEndpoints = ["/barcode"] ∧
    BARCODE_POLL_INTERVAL = 200 ∧
    (∀ s : String, s ≠ "" →
      (pollStep (.body (some (some s))) true).2 = 0) ∧
    (pollStep (.body none) true).2 = BARCODE_POLL_INTERVAL ∧
    (pollStep .fetchError true).2 = ERROR_RETRY_DELAY := by
  refine ⟨rfl, rfl, ?_, rfl, rfl⟩
  intro s hs
  simp [pollStep, hs]

/-- Witness for the amended C7 at a concrete response: after receiving
barcode "123" the next poll is immediate. -/
theorem poll_interval_configuration_witness :
    (pollStep (.body (some (some "123"))) true).2 = 0 :=
  poll_interval_configuration.2.2.1 "123" (by decide)

/-- C9: the polling loop forwards a polled code to `barcodeReader.scan` if
and only if the response body has a truthy `barcode` field (the reader
being available, which the loop waits for before starting); an empty-string
barcode is treated the same as null and never delivered; and the 200 ms
inter-poll delay is applied exactly on the responses whose barcode field is
falsy, so a non-empty barcode triggers an immediate next poll. -/
theorem barcode_forwarded_iff_truthy (resp : PollResponse) (s : String) :
    ((pollStep resp true).1 = some s ↔ resp = .body (some (some s)) ∧ s ≠ "") ∧
    ((pollStep resp true).2 = 0 ↔ ∃ u, (pollStep resp true).1 = some u) ∧
    ((pollStep resp true).2 = BARCODE_POLL_INTERVAL ↔
      (∃ d, resp = .body d) ∧ (pollStep resp true).1 = none) := by
  cases resp with
  | fetchError => simp [pollStep, ERROR_RETRY_DELAY, BARCODE_POLL_INTERVAL]
  | body data =>
    match data with
    | none => simp [pollStep, BARCODE_POLL_INTERVAL]
    | some none => simp [pollStep, BARCODE_POLL_INTERVAL]
    | some (some u) =>
      by_cases hu : u = ""
      · subst hu
        simp [pollStep, BARCODE_POLL_INTERVAL]
        intro h
        exact h.symm
      · simp [pollStep, hu, BARCODE_POLL_INTERVAL]
        exact fun h he => hu (h.trans he)

/-- A JavaScript value sitting in the `weight` field of the parsed
`/weight` response body.  `jnum` carries the numeric case (the embedding
uses rationals; JavaScript `NaN`, which also fails the `> 0` test, has no
representative and falls under the non-numeric constructors for the
purposes of the claims). -/
inductive JsVal where
  | jnum (q : Rat)
  | jstr (s : String)
  | jbool (b : Bool)
  | jnull
  | jundef
  deriving Repr, DecidableEq

/-- Outcome of the `/weight` fetch inside the wrapped product callback:
a thrown error (network failure, non-ok HTTP status, JSON parse failure —
all caught, leaving `weight = null`), a falsy parsed body (`data` null), or
a truthy body whose `weight` field is the given value (`jundef` when the
field is missing). -/
inductive WeightResponse where
  | fetchError
  | nullBody
  | body (weightField : JsVal)
  deriving Repr, DecidableEq

/-- The `weight` local of `wrappedProductCb` after the fetch: set exactly
when `data && typeof data.weight === "number" && data.weight !== null &&
data.weight > 0`. -/
def validWeight : WeightResponse → Option Rat
  | .body (.jnum q) => if 0 < q then some q else none
  | _ => none

/-- What the wrapped product callback does with a weighted product's
barcode scan. -/
inductive ProductAction where
  | addWeighted (qty : Rat)
  | fallback
  deriving Repr, DecidableEq

/-- The decision logic of `wrappedProductCb` in `magellan_scale_service.js`
for a product with `to_weight` set: if the fetched weight is valid
(`weight && weight > 0`) and a current order exists, add the product with
`quantity: weight` and skip the original callback; in every other case call
the original product callback with its default quantity. -/
def wrappedProductCb (resp : WeightResponse) (orderExists : Bool) : ProductAction :=
  match validWeight resp with
  | some q => if orderExists then .addWeighted q else .fallback
  | none => .fallback

/-- C8: with a current order present, the wrapped product callback adds the
weighted product with quantity equal to the `/weight` response's `weight`
field if and only if that field is a number strictly greater than zero; on
any other outcome (fetch failure, HTTP error, null body, missing, null,
non-numeric, zero or negative weight) it falls back to the original product
callback instead. -/
theorem weighted_product_added_iff_positive (resp : WeightResponse) (q : Rat) :
    (wrappedProductCb resp true = .addWeighted q ↔
      resp = .body (.jnum q) ∧ 0 < q) ∧
    (wrappedProductCb resp true = .fallback ↔
      ∀ u : Rat, ¬(resp = .body (.jnum u) ∧ 0 < u)) := by
  cases resp with
  | fetchError => simp [wrappedProductCb, validWeight]
  | nullBody => simp [wrappedProductCb, validWeight]
  | body v =>
    cases v with
    | jnum w =>
      by_cases hw : 0 < w
      · simp [wrappedProductCb, validWeight, hw]
        exact fun h => h ▸ hw
      · simp [wrappedProductCb, validWeight, hw]
        exact ⟨fun h => h ▸ le_of_not_lt hw, le_of_not_lt hw⟩
    | jstr s => simp [wrappedProductCb, validWeight]
    | jbool b => simp [wrappedProductCb, validWeight]
    | jnull => simp [wrappedProductCb, validWeight]
    | jundef => simp [wrappedProductCb, validWeight]

end ScaleService

namespace PrintService

/-- `RECEIPT_WIDTH` from `magellan_print_service.js` — receipt width in
characters for 80 mm paper at standard font. -/
def RECEIPT_WIDTH : Nat := 48

/-- The reassignment of the `left` local in `formatLine`
(`magellan_print_service.js`): if the left column exceeds the available
space `maxLeftLen = width - right.length - 1` (a JavaScript number, kept
here as an integer), truncate it to `maxLeftLen - 1` characters and append
an ellipsis (JavaScript's `substring` clamps a negative bound to zero,
hence `Int.toNat`); otherwise leave it unchanged. -/
def truncLeft (width : Nat) (left right : List Char) : List Char :=
  if (width : Int) - (right.length : Int) - 1 < (left.length : Int)
  then left.take ((width : Int) - (right.length : Int) - 1 - 1).toNat ++ ['…']
  else left

/-- `formatLine(left, right, width)` from `magellan_print_service.js`:
the (possibly truncated) left column, then
`' '.repeat(Math.max(1, padding))` with
`padding = width - left.length - right.length`, then the right column. -/
def formatLineW (width : Nat) (left right : List Char) : List Char :=
  truncLeft width left right ++
    List.replicate
      (max 1 ((width : Int) - ((truncLeft width left right).length : Int) -
        (right.length : Int))).toNat ' ' ++
    right

/-- `formatLine(left, right)` with the default width `RECEIPT_WIDTH`. -/
def formatLine (left right : List Char) : List Char :=
  formatLineW RECEIPT_WIDTH left right

theorem truncLeft_length_le (left right : List Char) (h : right.length ≤ 46) :
    (truncLeft 48 left right).length + right.length ≤ 47 := by
  unfold truncLeft
  split
  · next hlong =>
    simp only [List.length_append, List.length_take, List.length_singleton]
    omega
  · next hshort => omega

/-- C10: for every pair of strings with the right column at most 46
characters long, `formatLine` returns exactly `RECEIPT_WIDTH` = 48
characters, ending with the right column, with the (possibly truncated,
ellipsis-terminated) left part separated from it by at least one space. -/
theorem formatLine_width (left right : List Char) (h : right.length ≤ 46) :
    (formatLine left right).length = RECEIPT_WIDTH ∧
    ∃ (l : List Char) (p : Nat),
      1 ≤ p ∧
      formatLine left right = l ++ List.replicate p ' ' ++ right ∧
      l.length + p + right.length = RECEIPT_WIDTH ∧
      (l = left ∨ ∃ k : Nat, l = left.take k ++ ['…']) := by
  have hRW : RECEIPT_WIDTH = 48 := rfl
  have hle := truncLeft_length_le left right h
  have hcount :
      (max 1 ((48 : Nat) - ((truncLeft 48 left right).length : Int) -
        (right.length : Int))).toNat =
        48 - (truncLeft 48 left right).length - right.length := by
    omega
  have hform : formatLine left right =
      truncLeft 48 left right ++
        List.replicate (48 - (truncLeft 48 left right).length - right.length) ' ' ++
        right := by
    unfold formatLine formatLineW
    rw [hRW, hcount]
  refine ⟨?_, truncLeft 48 left right,
    48 - (truncLeft 48 left right).length - right.length, by omega, hform,
    by rw [hRW]; omega, ?_⟩
  · rw [hform, hRW]
    simp only [List.length_append, List.length_replicate]
    omega
  · unfold truncLeft
    split
    · exact Or.inr ⟨_, rfl⟩
    · exact Or.inl rfl

/-- Witness for C10 at a concrete line: a product name and price column of
4 characters format to exactly 48 characters. -/
theorem formatLine_width_witness :
    ("4.50".toList : List Char).length ≤ 46 ∧
    (formatLine "Apples x2".toList "4.50".toList).length = RECEIPT_WIDTH :=
  ⟨by decide, (formatLine_width "Apples x2".toList "4.50".toList (by decide)).1⟩

end PrintService
